import Mathlib

/-!
Shallow embedding of `newspaper/article.py` (the `Article` class: download,
parse, nlp, validity classification, pickling) and proofs about it.

Strings are modelled as `List Char`; Python truthiness of a string is
non-emptiness.  External collaborators (network, lxml, readability, the
extractor package) are modelled as an explicit environment of oracle
functions, so every theorem quantifies over their behaviour unless a claim
pins a concrete scenario.
-/

namespace Newspaper

/-- Python strings, modelled as lists of characters. -/
abbrev Str := List Char

/-- String literal helper: the character list of a Lean string literal. -/
def lit (s : String) : Str := s.data

/-- Python truthiness of a string: non-empty. -/
def truthy (s : Str) : Bool := !s.isEmpty

/-- Python truthiness of an optional string: `None` and `""` are falsy. -/
def truthyOpt : Option Str → Bool
  | some s => truthy s
  | none => false

/-- Rendering of a Python `Optional[str]` inside an f-string or `%s`:
`None` prints as the four characters `None`. -/
def pyOptStr : Option Str → Str
  | some s => s
  | none => lit ("None")

/-- Decimal rendering of a natural number, as Python `str()`/f-strings do. -/
def natStr (n : Nat) : Str := (Nat.repr n).data

/-- Python `str.split(sep)` for a single-character separator: keeps empty
segments, and the split of `""` is `[""]` (one empty segment). -/
def pysplit (sep : Char) : Str → List Str
  | [] => [[]]
  | c :: rest =>
    let r := pysplit sep rest
    if c = sep then [] :: r
    else
      match r with
      | [] => [[c]]
      | w :: ws => (c :: w) :: ws

/-- The space character, separator used by `text.split(" ")`. -/
def spaceChar : Char := Char.ofNat 32

/-- The period character, separator used by `text.split(".")`. -/
def dotChar : Char := Char.ofNat 46

/-- The newline character, used by `"\n".join(...)`. -/
def nlChar : Char := Char.ofNat 10

/-- `ArticleDownloadState` from `article.py`. -/
inductive ArticleDownloadState where
  | NOT_STARTED
  | FAILED_RESPONSE
  | SUCCESS
deriving DecidableEq, Repr

/-- The slice of `Configuration` that `article.py` reads or writes. -/
structure Configuration where
  max_title : Nat
  max_text : Nat
  max_summary : Nat
  max_keywords : Nat
  max_authors : Nat
  max_summary_sent : Nat
  min_word_count : Nat
  min_sent_count : Nat
  follow_meta_refresh : Bool
  use_meta_language : Bool
  language : Str
deriving DecidableEq, Repr

/-- An anchor node returned by `doc.xpath(read_more_link)`: only its
`get("href")` result is inspected by `download()`. -/
structure HtmlNode where
  href : Option Str
deriving DecidableEq, Repr

/-- An element of a parsed HTML document; only its attributes are
observable through the code under verification. -/
structure HtmlElem where
  attribs : List (Str × Str)
deriving DecidableEq, Repr

/-- A parsed HTML document (`lxml` tree), abstracted to its node sequence
in document order; the only observations the code makes on a tree are
document-order attribute searches and opaque hand-offs to collaborators. -/
structure HtmlDoc where
  nodes : List HtmlElem
deriving DecidableEq, Repr

/-- Result of `extractor.get_metadata`, plus the `meta_data["type"]` entry
that the extractor keeps and `is_valid_body` later reads. -/
structure Metadata where
  language : Str
  site_name : Str
  description : Str
  canonical_link : Str
  keywords : List Str
  tags : List Str
  data : List (Str × Str)
  meta_type : Str

/-- Result of `extractor.parse_images` as read back in `fetch_images`. -/
structure ImagesResult where
  meta_image : Str
  top_image : Str
  images : List Str
  favicon : Str

/-- Oracle environment: all external collaborators called by `article.py`
(network, urls, parsers, readability, cleaner, extractor, formatter, nlp). -/
structure Env where
  /-- `network.get_html_status`: html, status code, redirect history urls. -/
  net : Str → Except Str (Str × Nat × List Str)
  /-- `network.get_html` (used for the meta-refresh target). -/
  get_html : Str → Str
  /-- `utils.extract_meta_refresh`. -/
  extract_meta_refresh : Str → Option Str
  /-- `urlparse(url).scheme`. -/
  url_scheme : Str → Str
  /-- `urlparse(url).path`. -/
  url_path : Str → Str
  /-- local file read; error carries `e.strerror`. -/
  read_file : Str → Except Str Str
  /-- `parsers.fromstring(html).xpath(selector)` over the downloaded html. -/
  xpath : Str → Str → List HtmlNode
  /-- `urls.prepare_url(url, base)`. -/
  prepare_url : Str → Str → Str
  /-- `urls.get_scheme`. -/
  get_scheme : Str → Option Str
  /-- `urls.get_domain`. -/
  get_domain : Str → Str
  /-- `parsers.fromstring`: `none` models a parse that yields no tree. -/
  fromstring : Str → Option HtmlDoc
  /-- `extractor.get_title`. -/
  get_title : HtmlDoc → Str
  /-- `extractor.get_authors`. -/
  get_authors : HtmlDoc → List Str
  /-- `extractor.get_metadata(url, doc)`. -/
  get_metadata : Str → HtmlDoc → Metadata
  /-- `utils.get_available_languages()`. -/
  available_languages : List Str
  /-- `extractor.get_publishing_date(url, doc)`. -/
  get_publishing_date : Str → HtmlDoc → Option Str
  /-- `readability.Document(html).summary()`. -/
  readability_summary : Str → Str
  /-- `DocumentCleaner.clean` on a tree. -/
  clean : HtmlDoc → HtmlDoc
  /-- `extractor.calculate_best_node`. -/
  calculate_best_node : Option HtmlDoc → Option HtmlElem
  /-- `extractor.top_node_complemented`, the side artifact of the last
  `calculate_best_node` call, as a function of the tree it was passed. -/
  top_node_complemented_of : Option HtmlDoc → Option HtmlElem
  /-- `DocumentCleaner.clean` applied to the detached complemented node. -/
  clean_elem : Option HtmlElem → Option HtmlElem
  /-- `extractor.get_videos`: the `src` of each movie object found. -/
  get_videos : Option HtmlDoc → Option HtmlElem → List (Option Str)
  /-- `extractor.parse_images(url, doc, node)`. -/
  parse_images : Str → Option HtmlDoc → Option HtmlElem → ImagesResult
  /-- `OutputFormatter.get_formatted(node, title)` returning (text, html). -/
  get_formatted : Option HtmlElem → Str → Str × Str
  /-- `nlp.keywords(text, StopWords(language), max_keywords)`:
  language, text, max count; scores as rationals. -/
  keywords : Str → Str → Nat → List (Str × Rat)
  /-- `nlp.summarize(title, text, StopWords(language), max_sents)`:
  language, title, text, max sentence count. -/
  summarize : Str → Str → Str → Nat → List Str

/-- The `Article` object state: every attribute `__init__` creates.
Property-backed attributes (`_title`, `_text`, `_summary`, `_html`) are
stored under their public names; all writes go through the setter
functions below, mirroring the property protocol. -/
@[ext]
structure Article where
  config : Configuration
  source_url : Str
  url : Str
  original_url : Str
  title : Str
  read_more_link : Str
  top_image : Str
  meta_img : Str
  images : List Str
  movies : List Str
  text : Str
  text_cleaned : Str
  keywords : List Str
  keyword_scores : List (Str × Rat)
  meta_keywords : List Str
  tags : List Str
  authors : List Str
  publish_date : Option Str
  summary : Str
  html : Str
  article_html : Str
  is_parsed : Bool
  download_state : ArticleDownloadState
  download_exception_msg : Option Str
  history : List Str
  meta_description : Str
  meta_lang : Str
  meta_favicon : Str
  meta_site_name : Str
  meta_data : List (Str × Str)
  canonical_link : Str
  /-- `extractor.metadata_extractor.meta_data["type"]`, the entry the
  extractor collaborator stores during `get_metadata` and that
  `is_valid_body` reads back. -/
  extractor_meta_type : Str
  top_node : Option HtmlElem
  clean_top_node : Option HtmlElem
  top_node_complemented : Option HtmlElem
  doc : Option HtmlDoc
  clean_doc : Option HtmlDoc
deriving DecidableEq, Repr

/-- The `title` property setter: `value[: max_title] if value else ""`. -/
def set_title (a : Article) (value : Str) : Article :=
  { a with title := if truthy value then value.take a.config.max_title else [] }

/-- The `text` property setter: `value[: max_text] if value else ""`. -/
def set_text (a : Article) (value : Str) : Article :=
  { a with text := if truthy value then value.take a.config.max_text else [] }

/-- The `summary` property setter: `value[: max_summary] if value else ""`. -/
def set_summary (a : Article) (value : Str) : Article :=
  { a with summary := if truthy value then value.take a.config.max_summary else [] }

/-- The truncating assignment `parse()` performs on `text_cleaned`:
`text[: max_text] if text else ""`. -/
def set_text_cleaned (a : Article) (value : Str) : Article :=
  { a with text_cleaned := if truthy value then value.take a.config.max_text else [] }

/-- The `html` property setter: unconditionally marks the download as
SUCCESS, then stores the value, or `""` when the value is falsy. -/
def set_html (a : Article) (value : Option Str) : Article :=
  let a := { a with download_state := ArticleDownloadState.SUCCESS }
  if truthyOpt value then { a with html := value.getD [] } else { a with html := [] }

/-- Leading-match test: does the second list start with the first one. -/
def leadsWith : Str → Str → Bool
  | [], _ => true
  | _ :: _, [] => false
  | c :: cs, d :: ds => c = d && leadsWith cs ds

/-- Python `needle in hay` on strings: contiguous substring test. -/
def substr (needle : Str) : Str → Bool
  | [] => needle.isEmpty
  | c :: rest => leadsWith needle (c :: rest) || substr needle rest

/-- `Article._detect_protection`: ordered substring checks for known
protection vendors. -/
def detect_protection (html : Str) : Option Str :=
  if substr (lit ("cloudflare")) html then some (lit ("Cloudflare"))
  else if substr (lit ("/cdn-cgi/challenge-platform/h/b/orchestrate/chl_page")) html then
    some (lit ("Cloudflare"))
  else if substr (lit ("cloud-flare")) html then some (lit ("Cloudflare"))
  else if substr (lit ("CloudFront")) html then some (lit ("CloudFront"))
  else if substr (lit ("perimeterx")) html then some (lit ("PerimeterX"))
  else none

/-- `Article._parse_scheme_http`: fetch `url or self.url`, record the
redirect history, and on status ≥ 400 fail with the protection-aware
message.  The f-strings interpolate the `url` parameter itself, which
renders as `None` when the caller passed no explicit url. -/
def parse_scheme_http (env : Env) (a : Article) (url : Option Str) :
    Option Str × Article :=
  match env.net (url.getD a.url) with
  | .error e =>
    (none, { a with download_state := ArticleDownloadState.FAILED_RESPONSE,
                    download_exception_msg := some e })
  | .ok (html, status_code, history) =>
    let a := { a with history := history }
    if 400 ≤ status_code then
      let msg :=
        match detect_protection html with
        | some protection =>
          lit ("Website protected with ") ++ protection ++ lit (", url: ") ++ pyOptStr url
        | none =>
          lit ("Status code ") ++ natStr status_code ++ lit (" for url ") ++ pyOptStr url
      (none, { a with download_state := ArticleDownloadState.FAILED_RESPONSE,
                      download_exception_msg := some msg })
    else
      (some html, a)

/-- `Article._parse_scheme_file`: local read; an OS error records the
failure state and message. -/
def parse_scheme_file (env : Env) (a : Article) (path : Str) :
    Option Str × Article :=
  match env.read_file path with
  | .ok content => (some content, a)
  | .error e =>
    (none, { a with download_state := ArticleDownloadState.FAILED_RESPONSE,
                    download_exception_msg := some e })

/-- The `for read_more_node in doc.xpath(...)` loop of `download()`:
nodes whose `get("href")` is falsy are skipped; at the first node with a
truthy href the href is prepared against the current url and re-fetched,
the working html and `url` are replaced only if the re-fetch succeeds,
and the loop breaks either way. -/
def read_more_scan (env : Env) (a : Article) (html : Str) :
    List HtmlNode → Str × Article
  | [] => (html, a)
  | node :: rest =>
    match node.href with
    | some href =>
      if truthy href then
        let new_url := env.prepare_url href a.url
        match parse_scheme_http env a (some new_url) with
        | (some html_, a') => (html_, { a' with url := new_url })
        | (none, a') => (html, a')
      else read_more_scan env a html rest
    | none => read_more_scan env a html rest

/-- The input resolution step of `download()`: scheme dispatch when no
cached html is supplied, otherwise the supplied html. -/
def download_fetch (env : Env) (a : Article) (input_html : Option Str) :
    Option Str × Article :=
  match input_html with
  | none =>
    if env.url_scheme a.url = lit ("file") then
      parse_scheme_file env a (env.url_path a.url)
    else
      parse_scheme_http env a none
  | some h => (some h, a)

/-- The tail of `download()` after the meta-refresh decision: the
read-more scan, the `html` setter, and the optional forced title. -/
def download_tail (env : Env) (a : Article) (html : Str) (title : Option Str)
    (ignore_read_more : Bool) : Article :=
  let step : Str × Article :=
    if ignore_read_more = false ∧ truthy a.read_more_link = true then
      read_more_scan env a html (env.xpath html a.read_more_link)
    else (html, a)
  let a := set_html step.2 (some step.1)
  match title with
  | some t => set_title a t
  | none => a

/-- `Article.download`: scheme dispatch (unless `input_html` is given),
meta-refresh following guarded by `recursion_counter < 1`, then the
read-more scan, the `html` setter and the optional forced title.  The
recursive call passes default `title=None` and `ignore_read_more=False`,
exactly as the source does. -/
def download (env : Env) (a : Article) (input_html : Option Str)
    (title : Option Str) (recursion_counter : Nat) (ignore_read_more : Bool) :
    Article :=
  match download_fetch env a input_html with
  | (none, a) => a
  | (some html, a) =>
    if hmr : a.config.follow_meta_refresh = true ∧
        truthyOpt (env.extract_meta_refresh html) = true ∧ recursion_counter < 1 then
      download env a (some (env.get_html ((env.extract_meta_refresh html).getD [])))
        none (recursion_counter + 1) false
    else
      download_tail env a html title ignore_read_more
termination_by 1 - recursion_counter
decreasing_by
  omega

/-- `Article.__init__` for the fields this development tracks: source-url
inference, url preparation, `original_url` capture, title setter, and the
documented defaults.  Raises (`.error`) on a bad source url exactly where
the source does. -/
def article_init (env : Env) (config : Configuration) (url : Str)
    (title : Str) (source_url : Str) (read_more_link : Str) :
    Except Str Article :=
  let source_url :=
    if source_url = [] then
      let scheme := (env.get_scheme url).getD (lit ("http"))
      scheme ++ lit ("://") ++ env.get_domain url
    else source_url
  if source_url = [] then .error (lit ("input url bad format"))
  else
    let prepared := env.prepare_url url source_url
    let a : Article :=
      { config := config
        source_url := source_url
        url := prepared
        original_url := prepared
        title := []
        read_more_link := read_more_link
        top_image := []
        meta_img := []
        images := []
        movies := []
        text := []
        text_cleaned := []
        keywords := []
        keyword_scores := []
        meta_keywords := []
        tags := []
        authors := []
        publish_date := none
        summary := []
        html := []
        article_html := []
        is_parsed := false
        download_state := ArticleDownloadState.NOT_STARTED
        download_exception_msg := none
        history := []
        meta_description := []
        meta_lang := []
        meta_favicon := []
        meta_site_name := []
        meta_data := []
        canonical_link := []
        extractor_meta_type := []
        top_node := none
        clean_top_node := none
        top_node_complemented := none
        doc := none
        clean_doc := none }
    .ok (set_title a title)

/-- `Article.throw_if_not_downloaded_verbose`: exception on NOT_STARTED or
FAILED_RESPONSE; the failure message interpolates the stored exception
message (`None` renders literally) and the current url. -/
def throw_if_not_downloaded_verbose (a : Article) : Except Str Unit :=
  match a.download_state with
  | ArticleDownloadState.NOT_STARTED =>
    .error (lit ("You must `download()` an article first!"))
  | ArticleDownloadState.FAILED_RESPONSE =>
    .error (lit ("Article `download()` failed with ") ++
      pyOptStr a.download_exception_msg ++ lit (" on URL ") ++ a.url)
  | ArticleDownloadState.SUCCESS => .ok ()

/-- `Article.throw_if_not_parsed_verbose`. -/
def throw_if_not_parsed_verbose (a : Article) : Except Str Unit :=
  if a.is_parsed then .ok ()
  else .error (lit ("You must `parse()` an article first!"))

/-- `Article.set_movies`: keep `o.src` for truthy objects with truthy src. -/
def set_movies (a : Article) (movie_objects : List (Option Str)) : Article :=
  { a with movies := movie_objects.filterMap (fun o =>
      match o with
      | some src => if truthy src then some src else none
      | none => none) }

/-- `Article.parse`: the full pipeline.  A raw html that yields no tree
short-circuits with `is_parsed := true` and no other change; otherwise
metadata, readability reduction, cleaning, node selection, movies, images
and formatted text are produced through the collaborator oracles in the
source's order. -/
def parse (env : Env) (a : Article) : Except Str Article :=
  match throw_if_not_downloaded_verbose a with
  | .error e => .error e
  | .ok _ =>
    match env.fromstring a.html with
    | none =>
      -- doc is None: clean_doc is a deep copy of None; early return.
      .ok { a with doc := none, clean_doc := none, is_parsed := true }
    | some d0 =>
      let a := { a with doc := some d0, clean_doc := some d0 }
      let title := env.get_title d0
      let a := set_title a title
      let a := { a with authors := (env.get_authors d0).take a.config.max_authors }
      let md := env.get_metadata a.url d0
      let a :=
        if md.language ∈ env.available_languages then
          let a := { a with meta_lang := md.language }
          if a.config.use_meta_language then
            { a with config := { a.config with language := md.language } }
          else a
        else a
      let a := { a with meta_site_name := md.site_name
                        meta_description := md.description
                        canonical_link := md.canonical_link
                        meta_keywords := md.keywords
                        tags := md.tags
                        meta_data := md.data
                        extractor_meta_type := md.meta_type }
      let a := { a with publish_date := env.get_publishing_date a.url d0 }
      let html_readability := env.readability_summary a.html
      let a := { a with doc := env.fromstring html_readability }
      let a := { a with clean_doc := some (env.clean d0) }
      let a := { a with top_node := env.calculate_best_node a.doc }
      let a := { a with top_node_complemented := env.top_node_complemented_of a.doc }
      let a := { a with clean_top_node := env.calculate_best_node a.clean_doc }
      let a := set_movies a (env.get_videos a.doc a.top_node)
      let imgs := env.parse_images a.url a.clean_doc a.clean_top_node
      let a := { a with meta_img := imgs.meta_image
                        top_image := imgs.top_image
                        images := imgs.images
                        meta_favicon := imgs.favicon }
      let a :=
        match a.top_node with
        | some _ =>
          let a := { a with top_node_complemented := env.clean_elem a.top_node_complemented }
          let fm := env.get_formatted a.top_node_complemented title
          let a := { a with article_html := fm.2 }
          let a := set_text a fm.1
          let fm2 := env.get_formatted a.clean_top_node title
          set_text_cleaned a fm2.1
        | none => a
      .ok { a with is_parsed := true }

/-- One step of the keyword merge in `nlp()`: for a title keyword already
present, replace its score with the arithmetic mean in place; otherwise
append it (Python dict insertion order). -/
def merge_step (acc : List (Str × Rat)) (kv : Str × Rat) : List (Str × Rat) :=
  if (acc.lookup kv.1).isSome then
    acc.map (fun kv2 => if kv2.1 = kv.1 then (kv2.1, (kv2.2 + kv.2) / 2) else kv2)
  else acc ++ [kv]

/-- The keyword-merge loop of `nlp()` over the title keywords. -/
def keywords_merge (textKw titleKw : List (Str × Rat)) : List (Str × Rat) :=
  titleKw.foldl merge_step textKw

/-- Stable insertion (strictly-greater scores pass, ties keep the earlier
element first). -/
def insert_desc (x : Str × Rat) : List (Str × Rat) → List (Str × Rat)
  | [] => [x]
  | y :: ys => if y.2 ≤ x.2 then x :: y :: ys else y :: insert_desc x ys

/-- Stable descending sort by score, extensionally the behaviour of
Python `sorted(items, key=score, reverse=True)` (any two stable sorts on
the same key agree). -/
def sort_desc (l : List (Str × Rat)) : List (Str × Rat) :=
  l.foldr insert_desc []

/-- `Article.nlp`: preconditions, keyword extraction on text and title,
in-place mean-merge, stable descending sort, truncation, then the joined
summary through the summary setter. -/
def nlp_run (env : Env) (a : Article) : Except Str Article :=
  match throw_if_not_downloaded_verbose a with
  | .error e => .error e
  | .ok _ =>
    match throw_if_not_parsed_verbose a with
    | .error e => .error e
    | .ok _ =>
      let kwText := env.keywords a.config.language a.text a.config.max_keywords
      let kwTitle := env.keywords a.config.language a.title a.config.max_keywords
      let merged := keywords_merge kwText kwTitle
      let sorted_kw := sort_desc merged
      let truncated := sorted_kw.take a.config.max_keywords
      let a := { a with keywords := truncated.map Prod.fst
                        keyword_scores := truncated }
      let summary_sents :=
        env.summarize a.config.language a.title a.text a.config.max_summary_sent
      .ok (set_summary a (List.intercalate [nlChar] summary_sents))

/-- The fixed media-url markers of `is_media_news`. -/
def safe_urls : List Str :=
  [lit ("/video"), lit ("/slide"), lit ("/gallery"), lit ("/powerpoint"),
   lit ("/fashion"), lit ("/glamour"), lit ("/cloth")]

/-- `Article.is_media_news`: true when the url contains any marker. -/
def is_media_news (a : Article) : Bool :=
  safe_urls.any (fun s => substr s a.url)

/-- `Article.is_valid_body`: precondition check, then the nested
first-match rule chain exactly as written in the source.  The stored
title is never `None` (the setter always stores a string), so the
`self.title is None` disjunct of the source is vacuous here; the
exception text's accidental run of spaces and its apostrophe are
normalized. -/
def is_valid_body (a : Article) : Except Str Bool :=
  if a.is_parsed = false then
    .error (lit ("must parse article before checking if its body is valid!"))
  else
    let meta_type := a.extractor_meta_type
    let wordcount := pysplit spaceChar a.text
    let sentcount := pysplit dotChar a.text
    if meta_type = lit ("article") ∧ wordcount.length > a.config.min_word_count then
      .ok true
    else if is_media_news a = false ∧ truthy a.text = false then
      .ok false
    else if (pysplit spaceChar a.title).length < 2 then
      .ok false
    else if wordcount.length < a.config.min_word_count then
      .ok false
    else if sentcount.length < a.config.min_sent_count then
      .ok false
    else if a.html = [] then
      .ok false
    else
      .ok true

/-- `parsers.get_elements_by_attribs`.  Modelled from the spec: the tree
parser interface `findByAttribute(Tree, name, value) -> [Node]` returns
the nodes carrying that attribute value, in document order (the parsers
module itself is not part of the sources under verification). -/
def get_elements_by_attribs (d : HtmlDoc) (name value : Str) : List HtmlElem :=
  d.nodes.filter (fun e => decide ((name, value) ∈ e.attribs))

/-- The pickled dictionary `__setstate__` receives: every scalar and
collection attribute (carried here as an `Article` whose tree fields are
irrelevant), the `__parsed_state` flag, and the serialized `_doc_html`
present when that flag is set. -/
structure PickleState where
  base : Article
  parsed_state : Bool
  doc_html : Str

/-- `Article.__setstate__`: restore the dictionary, null out every tree
handle, and if the snapshot was parsed, re-parse the stored html and bind
`top_node` / `top_node_complemented` to the first node carrying their
sentinel attribute, leaving them null when no node does. -/
def setstate (env : Env) (st : PickleState) : Article :=
  let a := { st.base with top_node := none
                          clean_top_node := none
                          top_node_complemented := none
                          doc := none
                          clean_doc := none }
  if st.parsed_state then
    let doc := env.fromstring st.doc_html
    let a := { a with doc := doc }
    let nodes :=
      match doc with
      | some t => get_elements_by_attribs t (lit ("__newspaper_top_node")) (lit ("xxx"))
      | none => []
    let a :=
      match nodes with
      | n :: _ => { a with top_node := some n }
      | [] => a
    let nodes2 :=
      match doc with
      | some t =>
        get_elements_by_attribs t (lit ("__newspaper_top_node_complemented")) (lit ("xxx"))
      | none => []
    match nodes2 with
    | n :: _ => { a with top_node_complemented := some n }
    | [] => a
  else a

/-! Concrete fixtures used by witnesses and counterexamples. -/

/-- A concrete configuration for witnesses. -/
def cfg0 : Configuration :=
  { max_title := 200
    max_text := 100
    max_summary := 50
    max_keywords := 10
    max_authors := 5
    max_summary_sent := 3
    min_word_count := 3
    min_sent_count := 2
    follow_meta_refresh := false
    use_meta_language := false
    language := lit ("en") }

/-- A concrete environment whose oracles are all inert. -/
def env0 : Env :=
  { net := fun _ => .error (lit ("no network"))
    get_html := fun _ => []
    extract_meta_refresh := fun _ => none
    url_scheme := fun _ => lit ("http")
    url_path := fun _ => []
    read_file := fun _ => .error (lit ("no file"))
    xpath := fun _ _ => []
    prepare_url := fun u _ => u
    get_scheme := fun _ => some (lit ("http"))
    get_domain := fun _ => lit ("example.com")
    fromstring := fun _ => none
    get_title := fun _ => []
    get_authors := fun _ => []
    get_metadata := fun _ _ =>
      { language := [], site_name := [], description := [], canonical_link := []
        keywords := [], tags := [], data := [], meta_type := [] }
    available_languages := []
    get_publishing_date := fun _ _ => none
    readability_summary := fun _ => []
    clean := fun d => d
    calculate_best_node := fun _ => none
    top_node_complemented_of := fun _ => none
    clean_elem := fun x => x
    get_videos := fun _ _ => []
    parse_images := fun _ _ _ =>
      { meta_image := [], top_image := [], images := [], favicon := [] }
    get_formatted := fun _ _ => ([], [])
    keywords := fun _ _ _ => []
    summarize := fun _ _ _ _ => [] }

/-- A freshly constructed concrete article. -/
def a0 : Article :=
  { config := cfg0
    source_url := lit ("http://example.com")
    url := lit ("http://example.com/a")
    original_url := lit ("http://example.com/a")
    title := []
    read_more_link := []
    top_image := []
    meta_img := []
    images := []
    movies := []
    text := []
    text_cleaned := []
    keywords := []
    keyword_scores := []
    meta_keywords := []
    tags := []
    authors := []
    publish_date := none
    summary := []
    html := []
    article_html := []
    is_parsed := false
    download_state := ArticleDownloadState.NOT_STARTED
    download_exception_msg := none
    history := []
    meta_description := []
    meta_lang := []
    meta_favicon := []
    meta_site_name := []
    meta_data := []
    canonical_link := []
    extractor_meta_type := []
    top_node := none
    clean_top_node := none
    top_node_complemented := none
    doc := none
    clean_doc := none }

/-! Helper lemmas shared across claims. -/

/-- Once the download state is SUCCESS, `parse` never raises: both the
unparseable-tree branch and the full pipeline end in `.ok`. -/
theorem parse_ok_of_success (env : Env) (a : Article)
    (hs : a.download_state = ArticleDownloadState.SUCCESS) :
    ∃ b, parse env a = .ok b := by
  unfold parse
  rw [show throw_if_not_downloaded_verbose a = .ok () by
    simp [throw_if_not_downloaded_verbose, hs]]
  cases hfs : env.fromstring a.html with
  | none => exact ⟨_, rfl⟩
  | some d => exact ⟨_, rfl⟩

/-! Claim C4. -/

/-- C4: every individual assignment through the `title`, `text`,
`text_cleaned` and `summary` mutators leaves the stored value within its
configured maximum length (`max_title`, `max_text`, `max_text`,
`max_summary`); since this holds for an arbitrary starting state, a
longer value assigned after a shorter one is clipped as well, as the
explicit two-step conjuncts record. -/
theorem field_truncation_on_every_assignment (a : Article) (v w : Str) :
    (set_title a v).title.length ≤ a.config.max_title ∧
    (set_text a v).text.length ≤ a.config.max_text ∧
    (set_text_cleaned a v).text_cleaned.length ≤ a.config.max_text ∧
    (set_summary a v).summary.length ≤ a.config.max_summary ∧
    (set_title (set_title a v) w).title.length ≤ a.config.max_title ∧
    (set_text (set_text a v) w).text.length ≤ a.config.max_text ∧
    (set_text_cleaned (set_text_cleaned a v) w).text_cleaned.length ≤ a.config.max_text ∧
    (set_summary (set_summary a v) w).summary.length ≤ a.config.max_summary := by
  refine ⟨?_, ?_, ?_, ?_, ?_, ?_, ?_, ?_⟩ <;>
    simp only [set_title, set_text, set_text_cleaned, set_summary] <;>
    split <;> simp [List.length_take]

/-! Claim C10. -/

/-- C10: the `html` setter marks the download SUCCESS unconditionally,
also for `None` and `""`; hence `download(input_html="")` on a fresh
article that touches no network ends in SUCCESS with empty html and only
those two fields changed, and a subsequent `parse()` passes its
precondition check and returns normally. -/
theorem html_setter_unconditional_success (env : Env) (a : Article) (v : Option Str)
    (hmr : env.extract_meta_refresh [] = none) (hrm : a.read_more_link = []) :
    (set_html a v).download_state = ArticleDownloadState.SUCCESS ∧
    download env a (some []) none 0 false =
      { a with download_state := ArticleDownloadState.SUCCESS, html := [] } ∧
    ∃ b, parse env (download env a (some []) none 0 false) = .ok b := by
  have hdl : download env a (some []) none 0 false =
      { a with download_state := ArticleDownloadState.SUCCESS, html := [] } := by
    rw [download]
    simp [download_fetch, download_tail, hmr, hrm, truthyOpt, truthy, set_html]
  refine ⟨?_, hdl, ?_⟩
  · cases v with
    | none => simp [set_html, truthyOpt]
    | some s => by_cases h : truthy s <;> simp [set_html, truthyOpt, h]
  · rw [hdl]
    exact parse_ok_of_success env _ rfl

/-- Witness for C10 at the concrete fresh article and inert environment. -/
theorem html_setter_unconditional_success_witness :
    (set_html a0 (some [])).download_state = ArticleDownloadState.SUCCESS ∧
    download env0 a0 (some []) none 0 false =
      { a0 with download_state := ArticleDownloadState.SUCCESS, html := [] } ∧
    ∃ b, parse env0 (download env0 a0 (some []) none 0 false) = .ok b :=
  html_setter_unconditional_success env0 a0 (some []) rfl rfl

/-! Claim C6. -/

/-- An environment whose fetch answers 404 with a benign body. -/
def env404 : Env :=
  { env0 with
    net := fun _ => .ok (lit ("<html>nothing here</html>"), 404, [lit ("http://example.com/a")]) }

/-- C6, failing input: `download()` with no cached html on `a0` (whose url
is `http://example.com/a`) against a 404 response.  The state and the
FAILED_RESPONSE transition match the claim, but the message interpolates
the `url` parameter of `_parse_scheme_http`, which is `None` on this
path, so the message reads `Status code 404 for url None` instead of
naming the fetched url. -/
theorem download_failed_status_message_uses_none_url :
    (download env404 a0 none none 0 false).download_state =
      ArticleDownloadState.FAILED_RESPONSE ∧
    (download env404 a0 none none 0 false).html = [] ∧
    (download env404 a0 none none 0 false).download_exception_msg =
      some (lit ("Status code 404 for url None")) ∧
    lit ("Status code 404 for url None") ≠
      lit ("Status code 404 for url ") ++ a0.url := by
  rw [download]
  decide

/-! Claim C8. -/

/-- C8: after `__setstate__`, `clean_doc` and `clean_top_node` are null
for every snapshot; when the snapshot carries the parsed flag, the doc is
re-parsed from the stored html and `top_node` / `top_node_complemented`
are bound to the first node in document order carrying their sentinel
attribute, staying null (without raising) when no node does. -/
theorem setstate_restores_nodes_by_sentinel (env : Env) (st : PickleState) :
    (setstate env st).clean_doc = none ∧
    (setstate env st).clean_top_node = none ∧
    (st.parsed_state = true →
      (setstate env st).doc = env.fromstring st.doc_html ∧
      (setstate env st).top_node =
        (match env.fromstring st.doc_html with
         | some t =>
           (get_elements_by_attribs t (lit ("__newspaper_top_node")) (lit ("xxx"))).head?
         | none => none) ∧
      (setstate env st).top_node_complemented =
        (match env.fromstring st.doc_html with
         | some t =>
           (get_elements_by_attribs t (lit ("__newspaper_top_node_complemented"))
             (lit ("xxx"))).head?
         | none => none)) := by
  unfold setstate
  cases hps : st.parsed_state with
  | false => simp
  | true =>
    simp only [if_true]
    cases hfs : env.fromstring st.doc_html with
    | none => simp [hfs]
    | some t =>
      cases h1 : get_elements_by_attribs t (lit ("__newspaper_top_node")) (lit ("xxx")) with
      | nil =>
        cases h2 : get_elements_by_attribs t (lit ("__newspaper_top_node_complemented"))
            (lit ("xxx")) with
        | nil => simp [hfs, h1, h2]
        | cons n ns => simp [hfs, h1, h2]
      | cons n ns =>
        cases h2 : get_elements_by_attribs t (lit ("__newspaper_top_node_complemented"))
            (lit ("xxx")) with
        | nil => simp [hfs, h1, h2]
        | cons m ms => simp [hfs, h1, h2]

/-- A node carrying the top-node sentinel attribute. -/
def sentinelElem : HtmlElem :=
  { attribs := [(lit ("__newspaper_top_node"), lit ("xxx"))] }

/-- A node carrying the complemented-node sentinel attribute. -/
def sentinelElem2 : HtmlElem :=
  { attribs := [(lit ("__newspaper_top_node_complemented"), lit ("xxx"))] }

/-- A reconstructed document holding both sentinel nodes. -/
def docSnap : HtmlDoc :=
  { nodes := [{ attribs := [] }, sentinelElem, sentinelElem2] }

/-- Environment whose tree parser returns the sentinel-bearing document. -/
def envSnap : Env := { env0 with fromstring := fun _ => some docSnap }

/-- A parsed-state snapshot over the concrete article. -/
def stSnap : PickleState :=
  { base := a0, parsed_state := true, doc_html := lit ("<saved html>") }

/-- Witness for C8 on a concrete parsed snapshot. -/
theorem setstate_restores_nodes_by_sentinel_witness :
    (setstate envSnap stSnap).clean_doc = none ∧
    (setstate envSnap stSnap).clean_top_node = none ∧
    (setstate envSnap stSnap).top_node = some sentinelElem ∧
    (setstate envSnap stSnap).top_node_complemented = some sentinelElem2 := by
  obtain ⟨h1, h2, h3⟩ := setstate_restores_nodes_by_sentinel envSnap stSnap
  obtain ⟨hd, ht, hc⟩ := h3 rfl
  refine ⟨h1, h2, ?_, ?_⟩
  · rw [ht]; decide
  · rw [hc]; decide

/-! Claim C5. -/

/-- C5: after a successful download whose raw html yields no tree,
`parse` raises nothing, marks `is_parsed`, and changes nothing else (all
derived fields keep their values, i.e. their defaults on a fresh
article); exceptions arise exactly from the precondition violations:
parse before download, parse after a failed download, nlp before parse —
while a successful download always lets `parse` return normally. -/
theorem parse_unparseable_html_degrades_silently (env : Env) (a b c d e : Article)
    (hs : a.download_state = ArticleDownloadState.SUCCESS)
    (hn : env.fromstring a.html = none)
    (hb : b.download_state = ArticleDownloadState.NOT_STARTED)
    (hc : c.download_state = ArticleDownloadState.FAILED_RESPONSE)
    (hd1 : d.download_state = ArticleDownloadState.SUCCESS)
    (hd2 : d.is_parsed = false)
    (he : e.download_state = ArticleDownloadState.SUCCESS) :
    parse env a = .ok { a with doc := none, clean_doc := none, is_parsed := true } ∧
    parse env b = .error (lit ("You must `download()` an article first!")) ∧
    parse env c = .error (lit ("Article `download()` failed with ") ++
      pyOptStr c.download_exception_msg ++ lit (" on URL ") ++ c.url) ∧
    nlp_run env d = .error (lit ("You must `parse()` an article first!")) ∧
    ∃ x, parse env e = .ok x := by
  refine ⟨?_, ?_, ?_, ?_, parse_ok_of_success env e he⟩
  · unfold parse
    simp [throw_if_not_downloaded_verbose, hs, hn]
  · unfold parse
    simp [throw_if_not_downloaded_verbose, hb]
  · unfold parse
    simp [throw_if_not_downloaded_verbose, hc]
  · unfold nlp_run
    simp [throw_if_not_downloaded_verbose, throw_if_not_parsed_verbose, hd1, hd2]

/-- A concrete article in the successfully-downloaded state. -/
def aSuccess : Article := { a0 with download_state := ArticleDownloadState.SUCCESS }

/-- A concrete article in the failed-download state. -/
def aFailed : Article := { a0 with download_state := ArticleDownloadState.FAILED_RESPONSE }

/-- Witness for C5 at concrete articles and the inert environment (whose
tree parser yields no tree). -/
theorem parse_unparseable_html_degrades_silently_witness :
    parse env0 aSuccess =
      .ok { aSuccess with doc := none, clean_doc := none, is_parsed := true } ∧
    parse env0 a0 = .error (lit ("You must `download()` an article first!")) ∧
    parse env0 aFailed = .error (lit ("Article `download()` failed with ") ++
      pyOptStr aFailed.download_exception_msg ++ lit (" on URL ") ++ aFailed.url) ∧
    nlp_run env0 aSuccess = .error (lit ("You must `parse()` an article first!")) ∧
    ∃ x, parse env0 aSuccess = .ok x := by
  have h := parse_unparseable_html_degrades_silently env0 aSuccess a0 aFailed aSuccess
    aSuccess rfl rfl rfl rfl rfl rfl rfl
  exact h

/-! Claim C7. -/

/-- The split of the empty string has exactly one, empty, token. -/
theorem pysplit_nil (sep : Char) : pysplit sep [] = [[]] := rfl

/-- A string is falsy exactly when it is empty. -/
theorem truthy_eq_false_iff (s : Str) : truthy s = false ↔ s = [] := by
  cases s <;> simp [truthy]

/-- The missing-title disjunct is absorbed by the token-count test: an
empty title splits into a single token. -/
theorem title_missing_absorbed (t : Str) :
    (t = [] ∨ (pysplit spaceChar t).length < 2) ↔ (pysplit spaceChar t).length < 2 := by
  constructor
  · rintro (rfl | h)
    · simp [pysplit]
    · exact h
  · exact Or.inr

/-- The validity rules in the order the specification lists them; each
rule either decides (`some`) or defers (`none`). -/
def validity_rules (a : Article) : List (Option Bool) :=
  [ if a.extractor_meta_type = lit ("article") ∧
        (pysplit spaceChar a.text).length > a.config.min_word_count then some true else none,
    if is_media_news a = false ∧ a.text = [] then some false else none,
    if a.title = [] ∨ (pysplit spaceChar a.title).length < 2 then some false else none,
    if (pysplit spaceChar a.text).length < a.config.min_word_count then some false else none,
    if (pysplit dotChar a.text).length < a.config.min_sent_count then some false else none,
    if a.html = [] then some false else none ]

/-- The validity classifier as the specification words it: the first
matching rule decides, otherwise the article is valid, and calling it
before parsing is a precondition error. -/
def is_valid_body_spec (a : Article) : Except Str Bool :=
  if a.is_parsed then .ok (((validity_rules a).findSome? id).getD true)
  else .error (lit ("must parse article before checking if its body is valid!"))

/-- C7: `is_valid_body` evaluates exactly the specified rules in the
specified priority order with the first matching rule deciding, and
raises a precondition error before parse: it coincides with the spec-side
first-match rule list on every article. -/
theorem is_valid_body_matches_spec_rule_order (a : Article) :
    is_valid_body a = is_valid_body_spec a := by
  unfold is_valid_body is_valid_body_spec validity_rules
  cases hp : a.is_parsed with
  | false => simp
  | true =>
    simp only [hp, if_true, Bool.true_eq_false, if_false]
    simp only [truthy_eq_false_iff, title_missing_absorbed]
    split_ifs <;> simp [List.findSome?]

/-! Claim C1. -/

/-- The read-more selector used by the concrete scenario. -/
def selRM : Str := lit ("//a")

/-- Url of the concrete preview page. -/
def urlPreview : Str := lit ("http://example.com/preview")

/-- Href carried by the second matching node. -/
def hrefFull : Str := lit ("http://example.com/full")

/-- Html of the preview page. -/
def htmlPreview : Str := lit ("<html>preview</html>")

/-- Html of the full article behind the read-more link. -/
def htmlFull : Str := lit ("<html>full article</html>")

/-- A concrete article with a read-more selector configured. -/
def aRM : Article :=
  { a0 with url := urlPreview, original_url := urlPreview, read_more_link := selRM }

/-- Environment where the selector matches two nodes, the first without
an href, and the second href fetches successfully. -/
def envRM : Env :=
  { env0 with
    net := fun u =>
      if u = hrefFull then .ok (htmlFull, 200, [hrefFull])
      else .ok (htmlPreview, 200, [urlPreview])
    xpath := fun _ _ => [{ href := none }, { href := some hrefFull }] }

/-- C1 counterexample: with a selector matching two nodes whose first
carries no href, `download()` DOES fall through to the second node: it
re-fetches that node's href and replaces both the working html and the
article url, so the claim is false at this input. -/
theorem read_more_no_href_fall_through_cex :
    (download envRM aRM (some htmlPreview) none 0 false).url = hrefFull ∧
    (download envRM aRM (some htmlPreview) none 0 false).html = htmlFull ∧
    hrefFull ≠ aRM.url ∧ htmlFull ≠ htmlPreview := by
  rw [download]
  decide

/-- Does the node carry a usable (truthy) href. -/
def usable_href (n : HtmlNode) : Bool := truthyOpt n.href

/-- C1 amended: the read-more loop skips every matching node whose href
is missing or empty, and the FIRST node with a usable href decides: the
outcome does not depend on anything after it (no fallback, whether its
fetch succeeds or fails), and it is exactly one re-fetch attempt of that
node's prepared href, with the original html kept on failure. -/
theorem read_more_scan_stops_at_first_usable_href (env : Env) (a : Article)
    (html : Str) (pre : List HtmlNode) (n : HtmlNode) (rest rest2 : List HtmlNode)
    (hpre : ∀ m ∈ pre, usable_href m = false) (hn : usable_href n = true) :
    read_more_scan env a html (pre ++ n :: rest) =
      read_more_scan env a html (pre ++ n :: rest2) ∧
    read_more_scan env a html (pre ++ n :: rest) =
      (match parse_scheme_http env a (some (env.prepare_url (n.href.getD []) a.url)) with
       | (some html_, a') => (html_, { a' with url := env.prepare_url (n.href.getD []) a.url })
       | (none, a') => (html, a')) := by
  induction pre with
  | nil =>
    cases hh : n.href with
    | none => simp [usable_href, hh, truthyOpt] at hn
    | some h =>
      have ht : truthy h = true := by simpa [usable_href, hh, truthyOpt] using hn
      constructor
      · simp [read_more_scan, hh, ht]
      · simp only [List.nil_append, read_more_scan, hh, ht, if_true, Option.getD_some]
  | cons m pre ih =>
    have hm : usable_href m = false := hpre m (by simp)
    have hpre' : ∀ x ∈ pre, usable_href x = false := fun x hx => hpre x (by simp [hx])
    obtain ⟨ih1, ih2⟩ := ih hpre'
    cases hh : m.href with
    | none =>
      simpa [read_more_scan, hh] using ⟨ih1, ih2⟩
    | some h =>
      have ht : truthy h = false := by simpa [usable_href, hh, truthyOpt] using hm
      simpa [read_more_scan, hh, ht] using ⟨ih1, ih2⟩

/-- Witness for the amended C1 theorem: the node without href is
skipped, the second (usable) node decides, and a third node is never
reached. -/
theorem read_more_scan_stops_at_first_usable_href_witness :
    read_more_scan envRM aRM htmlPreview
        ([{ href := none }] ++ { href := some hrefFull } :: [{ href := some urlPreview }]) =
      read_more_scan envRM aRM htmlPreview
        ([{ href := none }] ++ { href := some hrefFull } :: []) ∧
    read_more_scan envRM aRM htmlPreview
        ([{ href := none }] ++ { href := some hrefFull } :: [{ href := some urlPreview }]) =
      (match parse_scheme_http envRM aRM
          (some (envRM.prepare_url (HtmlNode.href { href := some hrefFull } |>.getD []) aRM.url)) with
       | (some html_, a') =>
         (html_, { a' with
           url := envRM.prepare_url (HtmlNode.href { href := some hrefFull } |>.getD []) aRM.url })
       | (none, a') => (htmlPreview, a')) :=
  read_more_scan_stops_at_first_usable_href envRM aRM htmlPreview
    [{ href := none }] { href := some hrefFull } [{ href := some urlPreview }] []
    (by decide) (by decide)

/-! Claim C2. -/

/-- C2: with meta-refresh following enabled, a chain where page A
refreshes to B and B refreshes to C resolves to B's content: the first
hop recurses with `recursion_counter = 1`, at which point B's own
refresh directive is ignored (hard cap of depth 1), the working html
becomes B's html, the url is unchanged, and the download ends SUCCESS.
The environment's behaviour at C is left completely unconstrained, so C
is never consulted. -/
theorem meta_refresh_capped_at_one_hop (env : Env) (a : Article)
    (htmlA htmlB uB uC : Str) (status : Nat) (hist : List Str)
    (hfollow : a.config.follow_meta_refresh = true)
    (hscheme : ¬ (env.url_scheme a.url = lit ("file")))
    (hnet : env.net a.url = .ok (htmlA, status, hist))
    (hstatus : status < 400)
    (hmrA : env.extract_meta_refresh htmlA = some uB)
    (huB : truthy uB = true)
    (hgetB : env.get_html uB = htmlB)
    (hmrB : env.extract_meta_refresh htmlB = some uC)
    (huC : truthy uC = true)
    (hrm : a.read_more_link = []) :
    download env a none none 0 false =
      set_html { a with history := hist } (some htmlB) ∧
    (download env a none none 0 false).html = htmlB ∧
    (download env a none none 0 false).url = a.url ∧
    (download env a none none 0 false).download_state = ArticleDownloadState.SUCCESS := by
  have hfetch : download_fetch env a none = (some htmlA, { a with history := hist }) := by
    simp [download_fetch, hscheme, parse_scheme_http, hnet, Nat.not_le.mpr hstatus]
  have h1 : download env a none none 0 false =
      download env { a with history := hist } (some htmlB) none 1 false := by
    rw [download, hfetch]
    simp [hfollow, hmrA, truthyOpt, huB, hgetB]
  have h2 : download env { a with history := hist } (some htmlB) none 1 false =
      set_html { a with history := hist } (some htmlB) := by
    rw [download]
    simp [download_fetch, download_tail, hrm, truthy]
  have hres := h1.trans h2
  refine ⟨hres, ?_, ?_, ?_⟩ <;> rw [hres]
  · cases hb : truthy htmlB with
    | true => simp [set_html, truthyOpt, hb]
    | false =>
      have hnil : htmlB = [] := (truthy_eq_false_iff htmlB).mp hb
      subst hnil
      simp [set_html, truthyOpt, truthy]
  · simp [set_html]
    split <;> rfl
  · simp [set_html]
    split <;> rfl

/-- Html of the concrete chain page A. -/
def htmlMRA : Str := lit ("<html>page A</html>")

/-- Html of the concrete chain page B. -/
def htmlMRB : Str := lit ("<html>page B</html>")

/-- Refresh target on page A. -/
def uBfix : Str := lit ("http://b.example.com/x")

/-- Refresh target on page B (never fetched). -/
def uCfix : Str := lit ("http://c.example.com/y")

/-- Environment realizing the concrete two-hop meta-refresh chain. -/
def envMR : Env :=
  { env0 with
    net := fun _ => .ok (htmlMRA, 200, [lit ("http://example.com/a")])
    get_html := fun _ => htmlMRB
    extract_meta_refresh := fun h =>
      if h = htmlMRA then some uBfix
      else if h = htmlMRB then some uCfix
      else none }

/-- A concrete article with meta-refresh following enabled. -/
def aMR : Article := { a0 with config := { cfg0 with follow_meta_refresh := true } }

/-- Witness for C2 on the concrete chain. -/
theorem meta_refresh_capped_at_one_hop_witness :
    download envMR aMR none none 0 false =
      set_html { aMR with history := [lit ("http://example.com/a")] } (some htmlMRB) ∧
    (download envMR aMR none none 0 false).html = htmlMRB ∧
    (download envMR aMR none none 0 false).url = aMR.url ∧
    (download envMR aMR none none 0 false).download_state = ArticleDownloadState.SUCCESS :=
  meta_refresh_capped_at_one_hop envMR aMR htmlMRA htmlMRB uBfix uCfix 200
    [lit ("http://example.com/a")] rfl (by decide) rfl (by decide) (by decide)
    (by decide) rfl (by decide) (by decide) rfl

/-! Claim C9. -/

/-- The http fetch never touches `original_url`. -/
theorem parse_scheme_http_original_url (env : Env) (a : Article) (u : Option Str) :
    (parse_scheme_http env a u).2.original_url = a.original_url := by
  unfold parse_scheme_http
  cases env.net (u.getD a.url) with
  | error e => rfl
  | ok r =>
    obtain ⟨html, status, hist⟩ := r
    by_cases h : 400 ≤ status <;> simp [h]

/-- The read-more scan never touches `original_url`. -/
theorem read_more_scan_original_url (env : Env) (a : Article) (html : Str)
    (nodes : List HtmlNode) :
    (read_more_scan env a html nodes).2.original_url = a.original_url := by
  induction nodes with
  | nil => rfl
  | cons node rest ih =>
    unfold read_more_scan
    cases hh : node.href with
    | none => exact ih
    | some h =>
      cases ht : truthy h with
      | false => simpa [ht] using ih
      | true =>
        simp only [ht, if_true]
        have hp := parse_scheme_http_original_url env a (some (env.prepare_url h a.url))
        cases hps : parse_scheme_http env a (some (env.prepare_url h a.url)) with
        | mk o a2 =>
          rw [hps] at hp
          cases o <;> simpa using hp

/-- The `html` setter never touches `original_url`. -/
theorem set_html_original_url (a : Article) (v : Option Str) :
    (set_html a v).original_url = a.original_url := by
  unfold set_html
  split <;> rfl

/-- The input resolution step never touches `original_url`. -/
theorem download_fetch_original_url (env : Env) (a : Article) (i : Option Str) :
    (download_fetch env a i).2.original_url = a.original_url := by
  unfold download_fetch
  cases i with
  | some h => rfl
  | none =>
    by_cases hs : env.url_scheme a.url = lit ("file")
    · simp only [hs, if_true]
      unfold parse_scheme_file
      cases env.read_file (env.url_path a.url) <;> rfl
    · simp only [hs, if_false]
      exact parse_scheme_http_original_url env a none

/-- The download tail never touches `original_url`. -/
theorem download_tail_original_url (env : Env) (a : Article) (html : Str)
    (title : Option Str) (ign : Bool) :
    (download_tail env a html title ign).original_url = a.original_url := by
  unfold download_tail
  have h2 : (if ign = false ∧ truthy a.read_more_link = true then
      read_more_scan env a html (env.xpath html a.read_more_link)
    else (html, a)).2.original_url = a.original_url := by
    split
    · exact read_more_scan_original_url env a html _
    · rfl
  cases title with
  | none => exact (set_html_original_url _ _).trans h2
  | some t => exact (set_html_original_url _ _).trans h2

/-- `download` never touches `original_url`, whatever the environment,
inputs, and recursion counter. -/
theorem download_original_url (env : Env) (a : Article) (i t : Option Str)
    (rc : Nat) (ign : Bool) :
    (download env a i t rc ign).original_url = a.original_url := by
  have aux : ∀ (k rc : Nat), 1 - rc ≤ k → ∀ (a : Article) (i t : Option Str) (ign : Bool),
      (download env a i t rc ign).original_url = a.original_url := by
    intro k
    induction k with
    | zero =>
      intro rc hrc a i t ign
      rw [download]
      have hf2 := download_fetch_original_url env a i
      cases hf : download_fetch env a i with
      | mk o a2 =>
        rw [hf] at hf2
        cases o with
        | none => exact hf2
        | some html =>
          have hcond : ¬ (a2.config.follow_meta_refresh = true ∧
              truthyOpt (env.extract_meta_refresh html) = true ∧ rc < 1) := by
            rintro ⟨-, -, hlt⟩
            omega
          simp only [hcond]
          exact (download_tail_original_url env a2 html t ign).trans hf2
    | succ k ih =>
      intro rc hrc a i t ign
      rw [download]
      have hf2 := download_fetch_original_url env a i
      cases hf : download_fetch env a i with
      | mk o a2 =>
        rw [hf] at hf2
        cases o with
        | none => exact hf2
        | some html =>
          by_cases hc : a2.config.follow_meta_refresh = true ∧
              truthyOpt (env.extract_meta_refresh html) = true ∧ rc < 1
          · simp only [hc]
            exact (ih (rc + 1) (by omega) a2 _ none false).trans hf2
          · simp only [hc]
            exact (download_tail_original_url env a2 html t ign).trans hf2
  exact aux 1 rc (by omega) a i t ign

/-- `parse` never touches `original_url`. -/
theorem parse_original_url (env : Env) (b x : Article) (h : parse env b = .ok x) :
    x.original_url = b.original_url := by
  unfold parse at h
  cases hd : throw_if_not_downloaded_verbose b with
  | error e => rw [hd] at h; cases h
  | ok u =>
    rw [hd] at h
    cases hfs : env.fromstring b.html with
    | none =>
      rw [hfs] at h
      simp only [Except.ok.injEq] at h
      subst h
      rfl
    | some d0 =>
      rw [hfs] at h
      simp only [Except.ok.injEq] at h
      subst h
      simp only [set_title, set_text, set_text_cleaned, set_movies]
      split_ifs <;> (try split) <;> rfl

/-- `nlp` never touches `original_url`. -/
theorem nlp_run_original_url (env : Env) (b y : Article) (h : nlp_run env b = .ok y) :
    y.original_url = b.original_url := by
  unfold nlp_run at h
  cases hd : throw_if_not_downloaded_verbose b with
  | error e => rw [hd] at h; cases h
  | ok u =>
    rw [hd] at h
    cases hp : throw_if_not_parsed_verbose b with
    | error e => rw [hp] at h; cases h
    | ok u2 =>
      rw [hp] at h
      simp only [Except.ok.injEq] at h
      subst h
      rfl

/-- C9: `original_url` is fixed at construction to the prepared caller
url (so it equals the initial `url`), and no later `download`, `parse`
or `nlp` call ever modifies it — while `url` itself can drift away from
it on a redirect, as the concrete read-more scenario shows. -/
theorem original_url_immutable_after_init (env : Env) (cfg : Configuration)
    (url title source rml : Str) (a b x y : Article)
    (i t : Option Str) (rc : Nat) (ign : Bool)
    (ha : article_init env cfg url title source rml = .ok a)
    (hx : parse env b = .ok x) (hy : nlp_run env b = .ok y) :
    a.original_url = env.prepare_url url a.source_url ∧
    a.original_url = a.url ∧
    (download env b i t rc ign).original_url = b.original_url ∧
    x.original_url = b.original_url ∧
    y.original_url = b.original_url ∧
    (download envRM aRM (some htmlPreview) none 0 false).original_url =
      aRM.original_url ∧
    (download envRM aRM (some htmlPreview) none 0 false).url ≠ aRM.original_url := by
  have hurl : (download envRM aRM (some htmlPreview) none 0 false).url = hrefFull := by
    rw [download]
    decide
  have hinit : a.original_url = env.prepare_url url a.source_url ∧
      a.original_url = a.url := by
    unfold article_init at ha
    by_cases hsrc : source = []
    · simp only [hsrc, if_true, ite_true] at ha
      by_cases hX : ((env.get_scheme url).getD (lit ("http")) ++ lit ("://") ++
          env.get_domain url) = ([] : Str)
      · rw [if_pos hX] at ha
        simp at ha
      · rw [if_neg hX] at ha
        simp only [Except.ok.injEq] at ha
        subst ha
        exact ⟨rfl, rfl⟩
    · simp only [if_neg hsrc] at ha
      simp only [Except.ok.injEq] at ha
      subst ha
      exact ⟨rfl, rfl⟩
  refine ⟨hinit.1, hinit.2, download_original_url env b i t rc ign,
    parse_original_url env b x hx, nlp_run_original_url env b y hy,
    download_original_url envRM aRM (some htmlPreview) none 0 false, ?_⟩
  rw [hurl]
  decide

/-- A parsed, successfully-downloaded concrete article. -/
def aParsed : Article := { aSuccess with is_parsed := true }

/-- Witness for C9 at the concrete construction and concrete pipeline
calls. -/
theorem original_url_immutable_after_init_witness :
    a0.original_url = env0.prepare_url (lit ("http://example.com/a")) a0.source_url ∧
    a0.original_url = a0.url ∧
    (download env0 aParsed none none 0 false).original_url = aParsed.original_url ∧
    ({ aParsed with doc := none, clean_doc := none, is_parsed := true } : Article).original_url =
      aParsed.original_url ∧
    ({ aParsed with keywords := [], keyword_scores := [], summary := [] } : Article).original_url =
      aParsed.original_url ∧
    (download envRM aRM (some htmlPreview) none 0 false).original_url =
      aRM.original_url ∧
    (download envRM aRM (some htmlPreview) none 0 false).url ≠ aRM.original_url :=
  original_url_immutable_after_init env0 cfg0 (lit ("http://example.com/a")) []
    (lit ("http://example.com")) [] a0 aParsed
    { aParsed with doc := none, clean_doc := none, is_parsed := true }
    { aParsed with keywords := [], keyword_scores := [], summary := [] }
    none none 0 false rfl rfl rfl

/-! Claim C3: lemmas about the keyword merge and the stable sort. -/

/-- Python dict-style lookup over a cons cell. -/
theorem lookup_cons (j pk : Str) (pv : Rat) (l : List (Str × Rat)) :
    ((pk, pv) :: l).lookup j = if j == pk then some pv else l.lookup j := by
  cases h : j == pk <;> simp [List.lookup, h]

theorem lookup_map_update_self (l : List (Str × Rat)) (k : Str) (w : Rat)
    (f : Rat → Rat) (hl : l.lookup k = some w) :
    (l.map (fun kv2 => if kv2.1 = k then (kv2.1, f kv2.2) else kv2)).lookup k =
      some (f w) := by
  induction l with
  | nil => simp [List.lookup] at hl
  | cons p l ih =>
    obtain ⟨pk, pv⟩ := p
    rw [lookup_cons] at hl
    cases hb : k == pk with
    | true =>
      have hpk : k = pk := by simpa using hb
      subst hpk
      simp only [hb, if_true] at hl
      have hvw : pv = w := by simpa using hl
      subst hvw
      simp [List.map_cons, lookup_cons]
    | false =>
      have hne : ¬ (pk = k) := by
        intro h
        subst h
        simp at hb
      simp only [hb, Bool.false_eq_true, if_false] at hl
      simp [List.map_cons, lookup_cons, hne, hb, ih hl]

theorem lookup_map_update_ne (l : List (Str × Rat)) (k j : Str)
    (f : Rat → Rat) (hj : j ≠ k) :
    (l.map (fun kv2 => if kv2.1 = k then (kv2.1, f kv2.2) else kv2)).lookup j =
      l.lookup j := by
  induction l with
  | nil => simp
  | cons p l ih =>
    obtain ⟨pk, pv⟩ := p
    by_cases hpk : pk = k
    · subst hpk
      have hb : (j == pk) = false := by simpa using hj
      simp [List.map_cons, lookup_cons, hb, ih]
    · cases hb : j == pk <;>
        simp [List.map_cons, lookup_cons, hpk, hb, ih]

theorem lookup_append (l l' : List (Str × Rat)) (j : Str) :
    (l ++ l').lookup j =
      match l.lookup j with
      | some v => some v
      | none => l'.lookup j := by
  induction l with
  | nil => simp [List.lookup]
  | cons p l ih =>
    obtain ⟨pk, pv⟩ := p
    rw [List.cons_append, lookup_cons, lookup_cons]
    cases hb : j == pk <;> simp [ih]

theorem lookup_eq_none_of_not_mem (l : List (Str × Rat)) (j : Str)
    (h : j ∉ l.map Prod.fst) : l.lookup j = none := by
  induction l with
  | nil => rfl
  | cons p l ih =>
    obtain ⟨pk, pv⟩ := p
    simp only [List.map_cons, List.mem_cons, not_or] at h
    have hb : (j == pk) = false := by simpa using h.1
    rw [lookup_cons]
    simp only [hb, Bool.false_eq_true, if_false]
    exact ih h.2

theorem lookup_merge_step_self (t : List (Str × Rat)) (kk : Str) (kw : Rat) :
    (merge_step t (kk, kw)).lookup kk =
      some (match t.lookup kk with
            | some v => (v + kw) / 2
            | none => kw) := by
  unfold merge_step
  cases ht : t.lookup kk with
  | some w =>
    simp only [ht, Option.isSome_some, if_true]
    exact lookup_map_update_self t kk w (fun v => (v + kw) / 2) ht
  | none =>
    simp only [ht, Option.isSome_none, Bool.false_eq_true, if_false]
    rw [lookup_append, ht, lookup_cons]
    simp

theorem lookup_merge_step_ne (t : List (Str × Rat)) (kk : Str) (kw : Rat) (j : Str)
    (hj : j ≠ kk) :
    (merge_step t (kk, kw)).lookup j = t.lookup j := by
  unfold merge_step
  split
  · exact lookup_map_update_ne t kk j (fun v => (v + kw) / 2) hj
  · rw [lookup_append]
    have hb : (j == kk) = false := by simpa using hj
    cases ht : t.lookup j with
    | some w => rfl
    | none =>
      rw [lookup_cons]
      simp [hb]

theorem keywords_merge_lookup (s : List (Str × Rat)) :
    ∀ t : List (Str × Rat), (s.map Prod.fst).Nodup → ∀ k : Str,
      (keywords_merge t s).lookup k =
        match t.lookup k, s.lookup k with
        | some v1, some v2 => some ((v1 + v2) / 2)
        | some v1, none => some v1
        | none, some v2 => some v2
        | none, none => none := by
  induction s with
  | nil =>
    intro t _ k
    simp only [keywords_merge, List.foldl_nil, List.lookup]
    cases t.lookup k <;> rfl
  | cons kv s ih =>
    intro t hnd k
    obtain ⟨kk, kw⟩ := kv
    rw [List.map_cons, List.nodup_cons] at hnd
    obtain ⟨hknot, hnd'⟩ := hnd
    have hstep : keywords_merge t ((kk, kw) :: s) =
        keywords_merge (merge_step t (kk, kw)) s := rfl
    rw [hstep, ih (merge_step t (kk, kw)) hnd' k]
    by_cases hk : k = kk
    · subst hk
      have hsnone : s.lookup k = none := lookup_eq_none_of_not_mem s k hknot
      rw [hsnone, lookup_merge_step_self, lookup_cons]
      simp only [beq_self_eq_true, if_true]
      cases ht : t.lookup k <;> simp
    · have hb : (k == kk) = false := by simpa using hk
      rw [lookup_cons]
      simp only [hb, Bool.false_eq_true, if_false]
      rw [lookup_merge_step_ne t kk kw k hk]

/-- Membership in the stable insertion. -/
theorem mem_insert_desc (x y : Str × Rat) (l : List (Str × Rat)) :
    y ∈ insert_desc x l ↔ y = x ∨ y ∈ l := by
  induction l with
  | nil => simp [insert_desc]
  | cons z l ih =>
    unfold insert_desc
    split
    · simp only [List.mem_cons]
      try tauto
    · simp only [List.mem_cons, ih]
      try tauto

/-- The stable insertion preserves descending sortedness by score. -/
theorem sorted_insert_desc (x : Str × Rat) (l : List (Str × Rat))
    (hl : List.Sorted (fun p q => q.2 ≤ p.2) l) :
    List.Sorted (fun p q => q.2 ≤ p.2) (insert_desc x l) := by
  induction l with
  | nil => simp [insert_desc]
  | cons z l ih =>
    rw [List.sorted_cons] at hl
    obtain ⟨hz, hl'⟩ := hl
    unfold insert_desc
    split
    · rename_i hle
      rw [List.sorted_cons]
      refine ⟨?_, List.sorted_cons.mpr ⟨hz, hl'⟩⟩
      intro b hb
      rcases List.mem_cons.mp hb with rfl | hb
      · exact hle
      · exact le_trans (hz b hb) hle
    · rename_i hgt
      rw [List.sorted_cons]
      refine ⟨?_, ih hl'⟩
      intro b hb
      rcases (mem_insert_desc x b l).mp hb with rfl | hb
      · exact le_of_not_le hgt
      · exact hz b hb

/-- The stable sort produces a descending score sequence. -/
theorem sorted_sort_desc (l : List (Str × Rat)) :
    List.Sorted (fun p q => q.2 ≤ p.2) (sort_desc l) := by
  unfold sort_desc
  induction l with
  | nil => simp
  | cons x l ih => exact sorted_insert_desc x _ ih

/-- C3: `nlp()` merges the text and title keyword maps so that a key in
both maps gets the arithmetic mean of its two scores (not the sum), a
key in only one map keeps its score unchanged, the merged entries are
sorted by score descending, and truncation to `max_keywords` happens
after merging and sorting: the stored `keyword_scores` are exactly the
truncation of the sorted merge, with `keywords` their key list. -/
theorem nlp_keyword_merge_mean_sort_truncate (env : Env) (a : Article)
    (hs : a.download_state = ArticleDownloadState.SUCCESS)
    (hp : a.is_parsed = true)
    (hnodup : ((env.keywords a.config.language a.title a.config.max_keywords).map
      Prod.fst).Nodup)
    (k1 k2 k3 : Str) (v1 w1 v2 w3 : Rat)
    (h1t : (env.keywords a.config.language a.text a.config.max_keywords).lookup k1 =
      some v1)
    (h1s : (env.keywords a.config.language a.title a.config.max_keywords).lookup k1 =
      some w1)
    (h2t : (env.keywords a.config.language a.text a.config.max_keywords).lookup k2 =
      some v2)
    (h2s : (env.keywords a.config.language a.title a.config.max_keywords).lookup k2 =
      none)
    (h3t : (env.keywords a.config.language a.text a.config.max_keywords).lookup k3 =
      none)
    (h3s : (env.keywords a.config.language a.title a.config.max_keywords).lookup k3 =
      some w3) :
    ∃ a', nlp_run env a = .ok a' ∧
      a'.keyword_scores =
        (sort_desc (keywords_merge
          (env.keywords a.config.language a.text a.config.max_keywords)
          (env.keywords a.config.language a.title a.config.max_keywords))).take
            a.config.max_keywords ∧
      a'.keywords = a'.keyword_scores.map Prod.fst ∧
      (keywords_merge
          (env.keywords a.config.language a.text a.config.max_keywords)
          (env.keywords a.config.language a.title a.config.max_keywords)).lookup k1 =
        some ((v1 + w1) / 2) ∧
      (keywords_merge
          (env.keywords a.config.language a.text a.config.max_keywords)
          (env.keywords a.config.language a.title a.config.max_keywords)).lookup k2 =
        some v2 ∧
      (keywords_merge
          (env.keywords a.config.language a.text a.config.max_keywords)
          (env.keywords a.config.language a.title a.config.max_keywords)).lookup k3 =
        some w3 ∧
      List.Sorted (fun p q => q.2 ≤ p.2)
        ((sort_desc (keywords_merge
          (env.keywords a.config.language a.text a.config.max_keywords)
          (env.keywords a.config.language a.title a.config.max_keywords))).take
            a.config.max_keywords) := by
  unfold nlp_run
  rw [show throw_if_not_downloaded_verbose a = .ok () by
    simp [throw_if_not_downloaded_verbose, hs]]
  rw [show throw_if_not_parsed_verbose a = .ok () by
    simp [throw_if_not_parsed_verbose, hp]]
  refine ⟨_, rfl, rfl, rfl, ?_, ?_, ?_, ?_⟩
  · rw [keywords_merge_lookup _ _ hnodup, h1t, h1s]
  · rw [keywords_merge_lookup _ _ hnodup, h2t, h2s]
  · rw [keywords_merge_lookup _ _ hnodup, h3t, h3s]
  · exact (sorted_sort_desc _).take

/-- The key shared by both keyword maps of the concrete scenario. -/
def kwA : Str := lit ("alpha")

/-- The key found only in the text keyword map. -/
def kwB : Str := lit ("beta")

/-- The key found only in the title keyword map. -/
def kwC : Str := lit ("gamma")

/-- Concrete body text. -/
def textBody : Str := lit ("body text")

/-- Concrete title text. -/
def titleText : Str := lit ("title text")

/-- The environment realizing the specification's keyword example:
text keywords alpha 0.8 and beta 0.4, title keywords alpha 0.2 and
gamma 0.5. -/
def envKW : Env :=
  { env0 with
    keywords := fun _ txt _ =>
      if txt = textBody then [(kwA, 4 / 5), (kwB, 2 / 5)]
      else if txt = titleText then [(kwA, 1 / 5), (kwC, 1 / 2)]
      else [] }

/-- A parsed concrete article with the sample text and title. -/
def aKW : Article :=
  { a0 with download_state := ArticleDownloadState.SUCCESS, is_parsed := true,
            text := textBody, title := titleText }

/-- Witness for C3 on the specification's example: merged scores are
alpha 0.5 (mean), beta 0.4 and gamma 0.5 (unchanged), sorted descending
with the stable order alpha, gamma, beta, then truncated. -/
theorem nlp_keyword_merge_mean_sort_truncate_witness :
    ∃ a', nlp_run envKW aKW = .ok a' ∧
      a'.keyword_scores = [(kwA, 1 / 2), (kwC, 1 / 2), (kwB, 2 / 5)] := by
  obtain ⟨a', hok, hsc, hkw, h1, h2, h3, hsort⟩ :=
    nlp_keyword_merge_mean_sort_truncate envKW aKW rfl rfl (by decide)
      kwA kwB kwC (4 / 5) (1 / 5) (2 / 5) (1 / 2)
      rfl rfl rfl rfl rfl rfl
  refine ⟨a', hok, ?_⟩
  rw [hsc]
  have hBA : ¬ (kwB = kwA) := by decide
  have hbAA : (kwA == kwA) = true := by decide
  have hbCA : (kwC == kwA) = false := by decide
  have hbCB : (kwC == kwB) = false := by decide
  show (List.take aKW.config.max_keywords
    (sort_desc (keywords_merge [(kwA, 4 / 5), (kwB, 2 / 5)] [(kwA, 1 / 5), (kwC, 1 / 2)]))) =
    [(kwA, 1 / 2), (kwC, 1 / 2), (kwB, 2 / 5)]
  norm_num [keywords_merge, merge_step, sort_desc, insert_desc, List.lookup,
    hBA, hbAA, hbCA, hbCB, aKW, a0, cfg0]

end Newspaper
